import Mathlib

/-!
Shallow embedding of the dataset acquisition and label-normalization
pipeline of the repository (source file
`datasets/usd_cash_counting/scripts/download_roboflow.py`), together with
theorems settling the specification claims about it.
-/

namespace DownloadRoboflow

/-- Association-list lookup, the embedding of a Python dict read
`d[k]` / `d.get(k)` for string keys (first matching key wins; dict keys
are unique so this agrees with dict semantics). -/
def dictGet {α : Type} (l : List (String × α)) (k : String) : Option α :=
  match l with
  | [] => none
  | (k', v) :: rest => if k' = k then some v else dictGet rest k

/-- One entry of the `DATASETS` table: workspace, project, version,
description and the optional "format" key (absent for two datasets). -/
structure DatasetConfig where
  workspace : String
  project : String
  version : Nat
  description : String
  format : Option String
  deriving Repr, DecidableEq

/-- The `DATASETS` dict of `download_roboflow.py`, in insertion order. -/
def DATASETS : List (String × DatasetConfig) := [
  ("usd_bills",
    { workspace := "objectdetection-nhb0l", project := "usd-money", version := 2,
      description := "USD Bills dataset (5,600 images) - $1, $5, $10, $20, $50, $100",
      format := some "yolov8" }),
  ("dollar_bills_v20",
    { workspace := "alex-hyams-cosqx", project := "dollar-bill-detection", version := 20,
      description := "Dollar Bill Detection v20 (YOLOv8)",
      format := some "yolov8" }),
  ("front_back_usd_obb",
    { workspace := "sg-knxss", project := "front-back-of-usd", version := 1,
      description := "Front/Back USD OBB v1 (YOLOv8-OBB)",
      format := some "yolov8-obb" }),
  ("coin_counter",
    { workspace := "adrian-fvgo3", project := "coin-counter-practice-5xh0x", version := 1,
      description := "Coin Counter Practice (8,450 images) - penny, nickel, dime, quarter + distractors",
      format := none }),
  ("us_currency_coins",
    { workspace := "most-current-coin-counter-6292022", project := "us-currency-coins-o2oet", version := 1,
      description := "US Currency Coins (272 images) - multiple coins per image",
      format := none })]

/-- The `CLASS_MAPPING` dict: raw source label to unified class id. -/
def CLASS_MAPPING : List (String × Nat) := [
  ("penny", 0), ("Penny", 0), ("1cent", 0), ("1_cent", 0), ("one_cent", 0),
  ("nickel", 1), ("Nickel", 1), ("5cent", 1), ("5_cent", 1), ("five_cent", 1),
  ("dime", 2), ("Dime", 2), ("10cent", 2), ("10_cent", 2), ("ten_cent", 2),
  ("quarter", 3), ("Quarter", 3), ("25cent", 3), ("25_cent", 3), ("twenty_five_cent", 3),
  ("1", 4), ("$1", 4), ("one", 4), ("1_dollar", 4), ("dollar_bill", 4), ("one_dollar", 4),
  ("5", 5), ("$5", 5), ("five", 5), ("5_dollar", 5), ("five_dollars", 5), ("five_dollar", 5),
  ("10", 6), ("$10", 6), ("ten", 6), ("10_dollar", 6), ("ten_dollars", 6), ("ten_dollar", 6),
  ("20", 7), ("$20", 7), ("twenty", 7), ("20_dollar", 7), ("twenty_dollars", 7), ("twenty_dollar", 7),
  ("50", 8), ("$50", 8), ("fifty", 8), ("50_dollar", 8), ("fifty_dollars", 8), ("fifty_dollar", 8),
  ("100", 9), ("$100", 9), ("hundred", 9), ("100_dollar", 9), ("hundred_dollars", 9), ("hundred_dollar", 9)]

/-- The `SKIP_CLASSES` set (distractor classes from the coin counter dataset). -/
def SKIP_CLASSES : List String := ["nut", "screw", "nail", "washer", "bolt"]

/-- Outcome of resolving one raw label against the two static tables. -/
inductive NormalizeResult where
  | MappedId (id : Nat)
  | Discarded
  | Unknown (rawLabel : String)
  deriving Repr, DecidableEq

/-- Modelled from the spec: the repository file holding the label
resolution logic (the merge stage, `merge_datasets.py`) is not among the
provided sources; only the two static tables `CLASS_MAPPING` and
`SKIP_CLASSES` are. Following the spec wording, `normalize` does an
exact-string lookup first against the skip-set, then against the mapping
table; a label in neither is Unknown. -/
def normalize (rawLabel : String) : NormalizeResult :=
  if rawLabel ∈ SKIP_CLASSES then .Discarded
  else
    match dictGet CLASS_MAPPING rawLabel with
    | some id => .MappedId id
    | none => .Unknown rawLabel

/-- One invocation of the external Fetcher, i.e. the argument data of the
chain `rf.workspace(w).project(p).version(v).download(format, location)`
in `download_dataset`. -/
structure FetchCall where
  workspace : String
  project : String
  version : Nat
  format : String
  location : String
  deriving Repr, DecidableEq

/-- A Fetcher behaviour: for each call, either success or a raised
exception carrying a message. -/
def Fetcher : Type := FetchCall → Except String Unit

/-- The Fetcher call `download_dataset` builds for a given config: the
format is `config.get("format", "yolov8")` and the location is
`output_dir / dataset_name`. -/
def fetchCallOf (config : DatasetConfig) (dataset_name output_dir : String) : FetchCall :=
  { workspace := config.workspace, project := config.project,
    version := config.version,
    format := config.format.getD "yolov8",
    location := output_dir ++ "/" ++ dataset_name }

/-- `download_dataset`: look the name up in `DATASETS` (a missing key
raises KeyError, before any Fetcher call) and invoke the Fetcher with the
derived call. -/
def download_dataset (fetch : Fetcher) (dataset_name : String) (output_dir : String) :
    Except String Unit :=
  match dictGet DATASETS dataset_name with
  | none => .error ("KeyError: " ++ dataset_name)
  | some config => fetch (fetchCallOf config dataset_name output_dir)

/-- Status of one per-dataset download attempt. -/
inductive Status where
  | success
  | failure
  deriving Repr, DecidableEq

/-- Per-dataset outcome recorded by the loop in `main`: on success the
local path `output_dir / dataset_name` is reported, on failure the
exception message is. -/
structure DownloadOutcome where
  dataset_id : String
  status : Status
  local_path : Option String
  error_message : Option String
  deriving Repr, DecidableEq

/-- One iteration of the loop in `main`: `try: download_dataset(...)
except Exception as e: print failure` — every exception is caught at this
per-dataset boundary and becomes a failure outcome. -/
def downloadOne (fetch : Fetcher) (dataset_name output_dir : String) : DownloadOutcome :=
  match download_dataset fetch dataset_name output_dir with
  | .ok _ =>
    { dataset_id := dataset_name, status := .success,
      local_path := some (output_dir ++ "/" ++ dataset_name), error_message := none }
  | .error e =>
    { dataset_id := dataset_name, status := .failure,
      local_path := none, error_message := some e }

/-- The `for dataset_name in datasets_to_download` loop of `main`: each
iteration is independent and never propagates an exception. -/
def runLoop (fetch : Fetcher) (names : List String) (output_dir : String) :
    List DownloadOutcome :=
  match names with
  | [] => []
  | n :: rest => downloadOne fetch n output_dir :: runLoop fetch rest output_dir

/-- The argparse choices for `--datasets`: every registry key plus the
literal token "all". -/
def validChoices : List String := DATASETS.map Prod.fst ++ ["all"]

/-- The argparse validation of `--datasets` (`choices=list(DATASETS.keys())
+ ["all"]`): any value outside the choices aborts the program (exit
status 2) before the body of `main` runs. -/
def parseDatasetsArg (ds : List String) : Except String (List String) :=
  if ∀ d ∈ ds, d ∈ validChoices then .ok ds else .error "argparse: invalid choice"

/-- `datasets_to_download = list(DATASETS.keys()) if "all" in args.datasets
else args.datasets`. -/
def datasets_to_download (ds : List String) : List String :=
  if "all" ∈ ds then DATASETS.map Prod.fst else ds

/-- Observable result of one program run: the exit status, the per-dataset
outcomes in the order they were processed, and the Fetcher calls issued in
order. -/
structure ProgramResult where
  exitCode : Nat
  outcomes : List DownloadOutcome
  fetchCalls : List FetchCall
  deriving Repr, DecidableEq

/-- The Fetcher calls the loop issues: one per name that resolves in
`DATASETS` (a name that does not resolve raises KeyError before the
Fetcher is reached). -/
def callsOf (names : List String) (output_dir : String) : List FetchCall :=
  names.filterMap (fun n => (dictGet DATASETS n).map (fun c => fetchCallOf c n output_dir))

/-- `main`: parse `--datasets` (argparse aborts with status 2 on an
invalid choice), expand "all", run the per-dataset loop, and fall through
to the closing prints, exiting 0. -/
def main (fetch : Fetcher) (datasetsArg : List String) (output_dir : String) :
    ProgramResult :=
  match parseDatasetsArg datasetsArg with
  | .error _ => { exitCode := 2, outcomes := [], fetchCalls := [] }
  | .ok ds =>
    let names := datasets_to_download ds
    { exitCode := 0,
      outcomes := runLoop fetch names output_dir,
      fetchCalls := callsOf names output_dir }

/-- Expresses the spec sentence "order = Registry order, filtered to the
request": the registry keys in insertion order, restricted to the
requested ids. Stated from the spec wording, to be compared with the
order `main` actually uses. -/
def registryOrderFiltered (request : List String) : List String :=
  (DATASETS.map Prod.fst).filter (fun k => request.contains k)

end DownloadRoboflow

namespace DownloadRoboflow

/-- C2: `normalize` resolves the four scenario labels as the spec states:
"quarter" and "Quarter" map to unified id 3, "nut" is discarded, and
"dime_old" (in neither table) is Unknown. -/
theorem normalize_label_scenario :
    normalize "quarter" = .MappedId 3 ∧
    normalize "Quarter" = .MappedId 3 ∧
    normalize "nut" = .Discarded ∧
    normalize "dime_old" = .Unknown "dime_old" := by
  decide

/-- C3: every label of the skip-set normalizes to Discarded (never
MappedId or Unknown), and the skip-set is disjoint from the keys of the
mapping table. -/
theorem skip_classes_discarded :
    (∀ l ∈ SKIP_CLASSES, normalize l = .Discarded) ∧
    (∀ l ∈ SKIP_CLASSES, dictGet CLASS_MAPPING l = none) := by
  decide

/-- C3 witness: the theorem applied at the concrete skip label "nut". -/
theorem skip_classes_discarded_witness :
    normalize "nut" = .Discarded ∧ dictGet CLASS_MAPPING "nut" = none :=
  ⟨skip_classes_discarded.1 "nut" (by decide),
   skip_classes_discarded.2 "nut" (by decide)⟩

/-- C4: every unified class id in 0..9 has at least one raw label mapped
to it in `CLASS_MAPPING`, and every value of `CLASS_MAPPING` lies in 0..9. -/
theorem mapping_surjection :
    (∀ n, n < 10 → ∃ p ∈ CLASS_MAPPING, p.2 = n) ∧
    (∀ p ∈ CLASS_MAPPING, p.2 < 10) := by
  decide

/-- C4 witness: the theorem applied at class id 3 and at the first table
entry. -/
theorem mapping_surjection_witness :
    (∃ p ∈ CLASS_MAPPING, p.2 = 3) ∧ ("penny", 0).2 < 10 :=
  ⟨mapping_surjection.1 3 (by decide),
   mapping_surjection.2 ("penny", 0) (by decide)⟩

/-- The outcome of one loop iteration always carries the name of the
dataset that iteration processed. -/
theorem downloadOne_dataset_id (fetch : Fetcher) (n out : String) :
    (downloadOne fetch n out).dataset_id = n := by
  unfold downloadOne
  cases download_dataset fetch n out <;> rfl

/-- The loop produces one outcome per processed name. -/
theorem runLoop_length (fetch : Fetcher) (names : List String) (out : String) :
    (runLoop fetch names out).length = names.length := by
  induction names with
  | nil => rfl
  | cons n rest ih => simp [runLoop, ih]

/-- The i-th outcome of the loop is exactly the outcome of running the
i-th name alone: iterations do not influence each other. -/
theorem runLoop_getElem (fetch : Fetcher) (names : List String) (out : String)
    (i : Nat) (d : String) (h : names[i]? = some d) :
    (runLoop fetch names out)[i]? = some (downloadOne fetch d out) := by
  induction names generalizing i with
  | nil => simp at h
  | cons n rest ih =>
    cases i with
    | zero =>
      simp at h
      subst h
      simp [runLoop]
    | succ j =>
      simp at h
      simpa [runLoop] using ih j h

/-- The outcomes of the loop carry the processed names, in processing
order. -/
theorem runLoop_map_dataset_id (fetch : Fetcher) (names : List String) (out : String) :
    (runLoop fetch names out).map DownloadOutcome.dataset_id = names := by
  induction names with
  | nil => rfl
  | cons n rest ih => simp [runLoop, downloadOne_dataset_id, ih]

/-- When every requested id passes the argparse choices check, `main`
runs the loop over `datasets_to_download` and exits 0. -/
theorem main_valid (fetch : Fetcher) (dsArg : List String) (out : String)
    (hvalid : ∀ d ∈ dsArg, d ∈ validChoices) :
    main fetch dsArg out =
      { exitCode := 0,
        outcomes := runLoop fetch (datasets_to_download dsArg) out,
        fetchCalls := callsOf (datasets_to_download dsArg) out } := by
  unfold main parseDatasetsArg
  rw [if_pos hvalid]

/-- A key that `dictGet` resolves is among the keys of the table. -/
theorem mem_keys_of_dictGet_some {α : Type} (l : List (String × α)) (k : String) (v : α)
    (h : dictGet l k = some v) : k ∈ l.map Prod.fst := by
  induction l with
  | nil => simp [dictGet] at h
  | cons p rest ih =>
    obtain ⟨k', v'⟩ := p
    by_cases hk : k' = k
    · subst hk
      simp
    · rw [show dictGet ((k', v') :: rest) k = dictGet rest k from by simp [dictGet, hk]] at h
      exact List.mem_cons_of_mem _ (ih h)

/-- A fetcher that fails exactly on the usd-money project, used to
instantiate the isolation theorem on a concrete partial failure. -/
def failOnBills : Fetcher :=
  fun c => if c.project = "usd-money" then .error "network error" else .ok ()

/-- A fetcher for which every call raises. -/
def alwaysFail : Fetcher := fun _ => .error "simulated network error"

/-- C1: failure isolation of the orchestrator loop. For every list of N
requested names and every Fetcher behaviour, the loop is a total function
(it never raises), returns exactly N outcomes, the i-th outcome equals
the outcome of processing the i-th name alone (no cross-contamination),
a raising fetch for a dataset yields a failure outcome carrying its
message for that dataset, and a succeeding fetch yields a success
outcome. -/
theorem orchestrator_isolation (fetch : Fetcher) (names : List String) (out : String) :
    (runLoop fetch names out).length = names.length ∧
    (∀ (i : Nat) (d : String), names[i]? = some d →
      (runLoop fetch names out)[i]? = some (downloadOne fetch d out)) ∧
    (∀ d e, download_dataset fetch d out = .error e →
      downloadOne fetch d out =
        { dataset_id := d, status := .failure, local_path := none,
          error_message := some e }) ∧
    (∀ d, download_dataset fetch d out = .ok () →
      downloadOne fetch d out =
        { dataset_id := d, status := .success,
          local_path := some (out ++ "/" ++ d), error_message := none }) := by
  refine ⟨runLoop_length fetch names out, runLoop_getElem fetch names out, ?_, ?_⟩
  · intro d e h
    unfold downloadOne
    rw [h]
  · intro d h
    unfold downloadOne
    rw [h]

/-- C1 witness: two requested datasets where the first fetch raises; the
loop still yields two outcomes, the first a failure with the raised
message. -/
theorem orchestrator_isolation_witness :
    (runLoop failOnBills ["usd_bills", "coin_counter"] "out").length = 2 ∧
    (runLoop failOnBills ["usd_bills", "coin_counter"] "out")[0]? =
      some { dataset_id := "usd_bills", status := .failure, local_path := none,
             error_message := some "network error" } := by
  have h := orchestrator_isolation failOnBills ["usd_bills", "coin_counter"] "out"
  refine ⟨h.1, ?_⟩
  have h2 := h.2.1 0 "usd_bills" rfl
  have h3 := h.2.2.1 "usd_bills" "network error" rfl
  rw [h2, h3]

/-- C5 counterexample: requesting ["coin_counter", "usd_bills"] (without
"all"), the program processes and reports in the supplied order, which
differs from the Registry insertion order filtered to the request. -/
theorem processing_order_counterexample :
    (main (fun _ => Except.ok ()) ["coin_counter", "usd_bills"] "out").outcomes.map
        DownloadOutcome.dataset_id = ["coin_counter", "usd_bills"] ∧
    registryOrderFiltered ["coin_counter", "usd_bills"] = ["usd_bills", "coin_counter"] ∧
    (["coin_counter", "usd_bills"] : List String) ≠ ["usd_bills", "coin_counter"] := by
  refine ⟨?_, by decide, by decide⟩
  rfl

/-- C5 amended: the program processes and reports outcomes in the order
the ids were supplied (Registry insertion order only when "all" is
requested), and for a given request the reported order is the same for
every Fetcher behaviour (deterministic). -/
theorem processing_order_amended (fetch fetchAlt : Fetcher) (dsArg : List String)
    (out : String) (hvalid : ∀ d ∈ dsArg, d ∈ validChoices) :
    (main fetch dsArg out).outcomes.map DownloadOutcome.dataset_id =
      (if "all" ∈ dsArg then DATASETS.map Prod.fst else dsArg) ∧
    (main fetch dsArg out).outcomes.map DownloadOutcome.dataset_id =
      (main fetchAlt dsArg out).outcomes.map DownloadOutcome.dataset_id := by
  rw [main_valid fetch dsArg out hvalid, main_valid fetchAlt dsArg out hvalid]
  refine ⟨?_, ?_⟩
  · show (runLoop fetch (datasets_to_download dsArg) out).map _ = _
    rw [runLoop_map_dataset_id]
    rfl
  · show (runLoop fetch (datasets_to_download dsArg) out).map _ =
      (runLoop fetchAlt (datasets_to_download dsArg) out).map _
    rw [runLoop_map_dataset_id, runLoop_map_dataset_id]

/-- C5 amended witness: at a concrete request without "all", the reported
order is the supplied order. -/
theorem processing_order_amended_witness :
    (main (fun _ => Except.ok ()) ["coin_counter", "dollar_bills_v20"] "out").outcomes.map
        DownloadOutcome.dataset_id = ["coin_counter", "dollar_bills_v20"] := by
  have h := (processing_order_amended (fun _ => Except.ok ()) alwaysFail
      ["coin_counter", "dollar_bills_v20"] "out" (by decide)).1
  rw [if_neg (by decide)] at h
  exact h

/-- C6: best-effort exit contract. For every valid request for which at
least one per-dataset download fails, the program still runs to
completion and exits with status 0. -/
theorem best_effort_exit (fetch : Fetcher) (dsArg : List String) (out : String)
    (hvalid : ∀ d ∈ dsArg, d ∈ validChoices)
    (_hfail : ∃ o ∈ (main fetch dsArg out).outcomes, o.status = .failure) :
    (main fetch dsArg out).exitCode = 0 := by
  rw [main_valid fetch dsArg out hvalid]

/-- C6 witness: every fetch raising on the request ["usd_bills"], the
program exits 0. -/
theorem best_effort_exit_witness :
    (main alwaysFail ["usd_bills"] "o").exitCode = 0 :=
  best_effort_exit alwaysFail ["usd_bills"] "o" (by decide) (by decide)

/-- C7: an unknown dataset id is fatal before any work. A request
containing an id outside the argparse choices is rejected with a nonzero
exit status, no Fetcher call is made and no outcome is produced; and
resolving a name absent from the registry fails with KeyError instead of
invoking the Fetcher. -/
theorem unknown_dataset_fatal (fetch : Fetcher) (dsArg : List String) (out d : String)
    (hd : d ∈ dsArg) (hbad : d ∉ validChoices) :
    (main fetch dsArg out).fetchCalls = [] ∧
    (main fetch dsArg out).outcomes = [] ∧
    (main fetch dsArg out).exitCode = 2 ∧
    (∀ name, dictGet DATASETS name = none →
      download_dataset fetch name out = .error ("KeyError: " ++ name)) := by
  have hparse : ¬ (∀ x ∈ dsArg, x ∈ validChoices) := fun h => hbad (h d hd)
  unfold main parseDatasetsArg
  rw [if_neg hparse]
  refine ⟨rfl, rfl, rfl, ?_⟩
  intro name hn
  unfold download_dataset
  rw [hn]

/-- C7 witness: the concrete request ["nonexistent"] is rejected: no
Fetcher call and exit status 2. -/
theorem unknown_dataset_fatal_witness :
    (main alwaysFail ["nonexistent"] "o").fetchCalls = [] ∧
    (main alwaysFail ["nonexistent"] "o").exitCode = 2 := by
  have h := unknown_dataset_fatal alwaysFail ["nonexistent"] "o" "nonexistent"
    (by decide) (by decide)
  exact ⟨h.1, h.2.2.1⟩

/-- C8: if the token "all" appears anywhere in the selection, even next
to explicitly named ids, the whole Registry key list replaces the
selection, and the outcomes cover exactly the Registry keys in order. -/
theorem all_token_overrides (dsArg : List String) (hall : "all" ∈ dsArg) :
    datasets_to_download dsArg = DATASETS.map Prod.fst ∧
    ∀ (fetch : Fetcher) (out : String), (∀ d ∈ dsArg, d ∈ validChoices) →
      (main fetch dsArg out).outcomes.map DownloadOutcome.dataset_id =
        DATASETS.map Prod.fst := by
  have hdl : datasets_to_download dsArg = DATASETS.map Prod.fst := by
    unfold datasets_to_download
    rw [if_pos hall]
  refine ⟨hdl, ?_⟩
  intro fetch out hvalid
  rw [main_valid fetch dsArg out hvalid]
  show (runLoop fetch (datasets_to_download dsArg) out).map _ = _
  rw [runLoop_map_dataset_id, hdl]

/-- C8 witness: the request ["usd_bills", "all"] expands to every
Registry id. -/
theorem all_token_overrides_witness :
    datasets_to_download ["usd_bills", "all"] = DATASETS.map Prod.fst ∧
    (main (fun _ => Except.ok ()) ["usd_bills", "all"] "o").outcomes.map
      DownloadOutcome.dataset_id = DATASETS.map Prod.fst := by
  have h := all_token_overrides ["usd_bills", "all"] (by decide)
  exact ⟨h.1, h.2 (fun _ => Except.ok ()) "o" (by decide)⟩

/-- C9: the registry entries of coin_counter and us_currency_coins carry
no format key and are the only such entries; every resolvable name is
fetched with exactly the call derived from its config; and that call
uses the explicit format when present, the default "yolov8" when absent,
with destination always output_dir/<dataset_id>. -/
theorem fetch_format_and_destination :
    ((dictGet DATASETS "coin_counter").map DatasetConfig.format = some none) ∧
    ((dictGet DATASETS "us_currency_coins").map DatasetConfig.format = some none) ∧
    (∀ p ∈ DATASETS, p.2.format = none →
      p.1 = "coin_counter" ∨ p.1 = "us_currency_coins") ∧
    (∀ (fetch : Fetcher) (name : String) (config : DatasetConfig) (out : String),
      dictGet DATASETS name = some config →
      download_dataset fetch name out = fetch (fetchCallOf config name out)) ∧
    (∀ (config : DatasetConfig) (name out : String),
      (fetchCallOf config name out).format = config.format.getD "yolov8" ∧
      (fetchCallOf config name out).location = out ++ "/" ++ name) := by
  refine ⟨rfl, rfl, by decide, ?_, fun _ _ _ => ⟨rfl, rfl⟩⟩
  intro fetch name config out h
  unfold download_dataset
  rw [h]

/-- C9 witness: resolving coin_counter (no format key) produces a call
with the default format "yolov8" and destination "o/coin_counter". -/
theorem fetch_format_and_destination_witness :
    download_dataset alwaysFail "coin_counter" "o" =
      alwaysFail (fetchCallOf
        { workspace := "adrian-fvgo3", project := "coin-counter-practice-5xh0x", version := 1,
          description := "Coin Counter Practice (8,450 images) - penny, nickel, dime, quarter + distractors",
          format := none } "coin_counter" "o") ∧
    (fetchCallOf
        { workspace := "adrian-fvgo3", project := "coin-counter-practice-5xh0x", version := 1,
          description := "Coin Counter Practice (8,450 images) - penny, nickel, dime, quarter + distractors",
          format := none } "coin_counter" "o").format = "yolov8" ∧
    (fetchCallOf
        { workspace := "adrian-fvgo3", project := "coin-counter-practice-5xh0x", version := 1,
          description := "Coin Counter Practice (8,450 images) - penny, nickel, dime, quarter + distractors",
          format := none } "coin_counter" "o").location = "o" ++ "/" ++ "coin_counter" := by
  have h := fetch_format_and_destination
  refine ⟨h.2.2.2.1 alwaysFail "coin_counter" _ "o" rfl, ?_, ?_⟩
  · exact (h.2.2.2.2 _ "coin_counter" "o").1
  · exact (h.2.2.2.2 _ "coin_counter" "o").2

/-- The Fetcher-call trace of the loop, indexwise: one call per name,
each derived from that name's config. -/
theorem callsOf_spec (dsArg : List String) (out : String)
    (hvalid : ∀ d ∈ dsArg, ∃ c, dictGet DATASETS d = some c) :
    (callsOf dsArg out).length = dsArg.length ∧
    ∀ (i : Nat) (d : String), dsArg[i]? = some d →
      ∃ c, dictGet DATASETS d = some c ∧
        (callsOf dsArg out)[i]? = some (fetchCallOf c d out) := by
  induction dsArg with
  | nil => exact ⟨rfl, by intro i d h; simp at h⟩
  | cons n rest ih =>
    obtain ⟨c, hc⟩ := hvalid n (List.mem_cons_self n rest)
    have hrest := ih (fun d hd => hvalid d (List.mem_cons_of_mem n hd))
    have hcons : callsOf (n :: rest) out = fetchCallOf c n out :: callsOf rest out := by
      simp [callsOf, hc]
    constructor
    · rw [hcons]
      simp [hrest.1]
    · intro i d h
      cases i with
      | zero =>
        simp at h
        subst h
        exact ⟨c, hc, by rw [hcons]; simp⟩
      | succ j =>
        simp at h
        obtain ⟨c', hc', hg⟩ := hrest.2 j d h
        refine ⟨c', hc', ?_⟩
        rw [hcons]
        simpa using hg

/-- C10: the selection is an ordered list, not a set. Without "all", for
a request whose ids all resolve, the program issues exactly one Fetcher
call per occurrence (duplicates included), the i-th call being derived
from the i-th supplied id with destination output_dir/<id>, and records
one outcome per occurrence. -/
theorem no_deduplication (fetch : Fetcher) (dsArg : List String) (out : String)
    (hall : "all" ∉ dsArg)
    (hvalid : ∀ d ∈ dsArg, ∃ c, dictGet DATASETS d = some c) :
    (main fetch dsArg out).fetchCalls.length = dsArg.length ∧
    (main fetch dsArg out).outcomes.length = dsArg.length ∧
    (∀ (i : Nat) (d : String), dsArg[i]? = some d →
      ∃ c, dictGet DATASETS d = some c ∧
        (main fetch dsArg out).fetchCalls[i]? = some (fetchCallOf c d out) ∧
        (fetchCallOf c d out).location = out ++ "/" ++ d) := by
  have hvc : ∀ d ∈ dsArg, d ∈ validChoices := by
    intro d hd
    obtain ⟨c, hc⟩ := hvalid d hd
    exact List.mem_append_left _ (mem_keys_of_dictGet_some DATASETS d c hc)
  have hdl : datasets_to_download dsArg = dsArg := by
    unfold datasets_to_download
    rw [if_neg hall]
  rw [main_valid fetch dsArg out hvc, hdl]
  have hcalls := callsOf_spec dsArg out hvalid
  refine ⟨hcalls.1, runLoop_length fetch dsArg out, ?_⟩
  intro i d h
  obtain ⟨c, hc, hg⟩ := hcalls.2 i d h
  exact ⟨c, hc, hg, rfl⟩

/-- C10 witness: requesting usd_bills twice issues two Fetcher calls and
records two outcomes. -/
theorem no_deduplication_witness :
    (main (fun _ => Except.ok ()) ["usd_bills", "usd_bills"] "o").fetchCalls.length = 2 ∧
    (main (fun _ => Except.ok ()) ["usd_bills", "usd_bills"] "o").outcomes.length = 2 := by
  have h := no_deduplication (fun _ => Except.ok ()) ["usd_bills", "usd_bills"] "o"
    (by decide)
    (by
      intro d hd
      simp at hd
      subst hd
      exact ⟨_, rfl⟩)
  exact ⟨h.1, h.2.1⟩

end DownloadRoboflow
